import Mathlib

/- Shallow embedding of the prozemle-zapchasti parts-catalog application
   (src/app.py, src/db.py, src/catalog_data.py).  Excel rows, catalog
   records, search-log rows, saved queries and part requests are modelled
   as explicit structures; SQLAlchemy/pandas operations become pure list
   functions over them. -/

namespace Prozemle

/-! ### String primitives mirroring Python / SQL behaviour -/

/-- Characters stripped by Python `str.strip()` (the ASCII whitespace set). -/
def isStripWS (c : Char) : Bool :=
  c = ' ' || c = '\t' || c = '\n' || c = '\r' || c = '\x0b' || c = '\x0c'

/-- Python `str.strip()` on the underlying character list. -/
def stripData (l : List Char) : List Char :=
  ((l.dropWhile isStripWS).reverse.dropWhile isStripWS).reverse

/-- Python `str.strip()`. -/
def pyStrip (s : String) : String := String.mk (stripData s.data)

/-- Python `str.lower()` restricted to the alphabets this code base uses:
    ASCII `A`–`Z`, Cyrillic `А`–`Я` and `Ё`. -/
def lowerChar (c : Char) : Char :=
  let n := c.toNat
  if 65 ≤ n && n ≤ 90 then Char.ofNat (n + 32)
  else if 1040 ≤ n && n ≤ 1071 then Char.ofNat (n + 32)
  else if n = 1025 then Char.ofNat 1105
  else c

def lowerData (l : List Char) : List Char := l.map lowerChar

def lowerStr (s : String) : String := String.mk (lowerData s.data)

/-- Tests whether `pat` occurs as a contiguous sublist of the second argument. -/
def subOf (pat : List Char) : List Char → Bool
  | [] => pat.isEmpty
  | c :: t => pat.isPrefixOf (c :: t) || subOf pat t

/-- Case-insensitive substring test: Python `pat.lower() in field.lower()`,
    pandas `Series.str.contains(pat, case=False)` for regex-free literal
    patterns, and the SQL condition `lower(col) LIKE q` with a
    percent-wrapped pattern free of wildcard characters. -/
def containsCI (hay pat : String) : Bool :=
  subOf (lowerData pat.data) (lowerData hay.data)

def startsWithB (s pre : String) : Bool := pre.data.isPrefixOf s.data

def endsWithB (s suf : String) : Bool := suf.data.isSuffixOf s.data

/-- Scanner for `urlsplit`: the character list after the first `"://"`. -/
def afterScheme : List Char → Option (List Char)
  | ':' :: '/' :: '/' :: rest => some rest
  | _ :: t => afterScheme t
  | [] => none

/-- Models `urlsplit(url).netloc` for absolute URLs: the authority between `"://"`
    and the next `/`, `?` or `#`; empty when the URL has no `"://"`. -/
def netloc (s : String) : String :=
  match afterScheme s.data with
  | none => ""
  | some r => String.mk (r.takeWhile (fun c => c != '/' && c != '?' && c != '#'))

/-- Models `s.strip() or None` — the pervasive empty-to-NULL normalisation. -/
def optOfStr (s : String) : Option String := if s = "" then none else some s

/-- Python `str.split()` with no argument: split on whitespace runs,
    dropping empty pieces (auxiliary accumulator form). -/
def wordsAux : List Char → List Char → List (List Char)
  | [], acc => if acc.isEmpty then [] else [acc.reverse]
  | c :: cs, acc =>
    if isStripWS c then
      if acc.isEmpty then wordsAux cs [] else acc.reverse :: wordsAux cs []
    else wordsAux cs (c :: acc)

/-- Python `str.split()` with no argument. -/
def pyWords (s : String) : List String := (wordsAux s.data []).map String.mk

/-! ### Data model (src/db.py models, as plain records) -/

/-- Model of `db.Catalog`: one stored catalog entry.  The Python column `type` is
    rendered as `ctype`. -/
structure Catalog where
  id : Nat
  group_name : Option String
  models : Option String
  ctype : Option String
  description : Option String
  url : String
  domain : Option String
  status : Option String
  source_type : Option String
  is_favorite : Bool
  engineer_note : Option String
deriving DecidableEq, Repr

/-- Model of `db.SearchLog`: one logged search (only the columns `log_search` fills). -/
structure SearchLogRow where
  query : Option String
  group_filter : Option String
  type_filter : Option String
  has_favorite : Bool
  results_count : Nat
deriving DecidableEq, Repr

/-- Model of `db.SavedQuery`: a stored search template. -/
structure SavedQueryRec where
  title : String
  query : Option String
  group_filter : Option String
  type_filter : Option String
deriving DecidableEq, Repr

/-- Model of `db.PartRequest`: one purchase-request ticket.  `created_at` is an
    abstract timestamp tick. -/
structure PartRequest where
  id : Nat
  part_number : Option String
  name : Option String
  model : Option String
  group_name : Option String
  catalog_id : Option Nat
  source_url : Option String
  requester_ip : Option String
  requester_ua : Option String
  status : String
  note : Option String
  created_at : Nat
deriving DecidableEq, Repr

/-- The filter set produced by `app._current_filters_from_request`. -/
structure Filters where
  group : String
  model : String
  catalog_type : String
  query : String
  country : String
  favorites_only : Bool
deriving DecidableEq, Repr

/-! ### Comparators for the SQL `ORDER BY` clauses -/

def cmpNat (a b : Nat) : Ordering :=
  if a < b then .lt else if b < a then .gt else .eq

/-- String comparison in SQLite BINARY collation (UTF-8 byte order, which
    coincides with codepoint order). -/
def cmpCharData : List Char → List Char → Ordering
  | [], [] => .eq
  | [], _ :: _ => .lt
  | _ :: _, [] => .gt
  | a :: as, b :: bs =>
    if a.toNat < b.toNat then .lt
    else if b.toNat < a.toNat then .gt
    else cmpCharData as bs

/-- SQLite ascending order on a nullable text column: NULLs first. -/
def cmpOptStr : Option String → Option String → Ordering
  | none, none => .eq
  | none, some _ => .lt
  | some _, none => .gt
  | some a, some b => cmpCharData a.data b.data

theorem cmpNat_swap (a b : Nat) : cmpNat b a = (cmpNat a b).swap := by
  unfold cmpNat
  rcases Nat.lt_trichotomy a b with h | h | h <;>
    simp [h, Nat.lt_asymm, Nat.lt_irrefl, Ordering.swap]

theorem cmpNat_eq_iff (a b : Nat) : cmpNat a b = .eq ↔ a = b := by
  unfold cmpNat
  split <;> [skip; split] <;> simp <;> omega

theorem cmpNat_congr (a b : Nat) (h : cmpNat a b = .eq) (c : Nat) :
    cmpNat a c = cmpNat b c := by
  rw [(cmpNat_eq_iff a b).mp h]

theorem cmpNat_lt_trans (a b c : Nat) (h1 : cmpNat a b = .lt)
    (h2 : cmpNat b c = .lt) : cmpNat a c = .lt := by
  unfold cmpNat at h1 h2 ⊢
  split at h1 <;> split at h2 <;> simp_all
  omega

theorem cmpNat_le_trans (a b c : Nat) (h1 : cmpNat a b ≠ .gt)
    (h2 : cmpNat b c ≠ .gt) : cmpNat a c ≠ .gt := by
  unfold cmpNat at h1 h2 ⊢
  repeat' split at h1
  all_goals repeat' split at h2
  all_goals simp_all
  all_goals omega

theorem cmpCharData_swap : ∀ l m, cmpCharData m l = (cmpCharData l m).swap
  | [], [] => rfl
  | [], _ :: _ => rfl
  | _ :: _, [] => rfl
  | a :: as, b :: bs => by
    unfold cmpCharData
    rcases Nat.lt_trichotomy a.toNat b.toNat with h | h | h
    · simp [h, Nat.lt_asymm h, Ordering.swap]
    · simp [h, Nat.lt_irrefl, cmpCharData_swap as bs]
    · simp [h, Nat.lt_asymm h, Ordering.swap]

theorem cmpCharData_congr : ∀ l m, cmpCharData l m = .eq →
    ∀ n, cmpCharData l n = cmpCharData m n
  | [], [], _, _ => rfl
  | [], _ :: _, h, _ => by simp [cmpCharData] at h
  | _ :: _, [], h, _ => by simp [cmpCharData] at h
  | a :: as, b :: bs, h, n => by
    unfold cmpCharData at h
    split at h
    · simp at h
    · split at h
      · simp at h
      · rename_i h1 h2
        have hab : a.toNat = b.toNat := by omega
        match n with
        | [] => rfl
        | c :: cs =>
          unfold cmpCharData
          rw [hab, cmpCharData_congr as bs h cs]

theorem cmpCharData_cons_lt (a b : Char) (as bs : List Char) :
    cmpCharData (a :: as) (b :: bs) = .lt ↔
      (a.toNat < b.toNat ∨ (a.toNat = b.toNat ∧ cmpCharData as bs = .lt)) := by
  simp only [cmpCharData]
  by_cases g1 : a.toNat < b.toNat
  · simp [g1]
  · by_cases g2 : b.toNat < a.toNat
    · have hne : ¬ a.toNat = b.toNat := by omega
      simp [g1, g2, hne]
    · have hab : a.toNat = b.toNat := by omega
      simp [g1, g2, hab]

theorem cmpCharData_cons_le (a b : Char) (as bs : List Char) :
    cmpCharData (a :: as) (b :: bs) ≠ .gt ↔
      (a.toNat < b.toNat ∨ (a.toNat = b.toNat ∧ cmpCharData as bs ≠ .gt)) := by
  simp only [cmpCharData]
  by_cases g1 : a.toNat < b.toNat
  · simp [g1]
  · by_cases g2 : b.toNat < a.toNat
    · have hne : ¬ a.toNat = b.toNat := by omega
      simp [g1, g2, hne]
    · have hab : a.toNat = b.toNat := by omega
      simp [g1, g2, hab]

theorem cmpCharData_lt_trans : ∀ l m n, cmpCharData l m = .lt →
    cmpCharData m n = .lt → cmpCharData l n = .lt
  | [], [], _, h1, _ => by simp [cmpCharData] at h1
  | _ :: _, [], _, h1, _ => by simp [cmpCharData] at h1
  | [], _ :: _, [], _, h2 => by simp [cmpCharData] at h2
  | _ :: _, _ :: _, [], _, h2 => by simp [cmpCharData] at h2
  | [], _ :: _, _ :: _, _, _ => rfl
  | a :: as, b :: bs, c :: cs, h1, h2 => by
    rw [cmpCharData_cons_lt] at h1 h2 ⊢
    rcases h1 with h1 | ⟨h1, h1r⟩ <;> rcases h2 with h2 | ⟨h2, h2r⟩
    · exact Or.inl (by omega)
    · exact Or.inl (by omega)
    · exact Or.inl (by omega)
    · exact Or.inr ⟨by omega, cmpCharData_lt_trans as bs cs h1r h2r⟩

theorem cmpCharData_le_trans : ∀ l m n, cmpCharData l m ≠ .gt →
    cmpCharData m n ≠ .gt → cmpCharData l n ≠ .gt
  | [], _, n, _, _ => by cases n <;> simp [cmpCharData]
  | _ :: _, [], _, h1, _ => by simp [cmpCharData] at h1
  | _ :: _, _ :: _, [], _, h2 => by simp [cmpCharData] at h2
  | a :: as, b :: bs, c :: cs, h1, h2 => by
    rw [cmpCharData_cons_le] at h1 h2 ⊢
    rcases h1 with h1 | ⟨h1, h1r⟩ <;> rcases h2 with h2 | ⟨h2, h2r⟩
    · exact Or.inl (by omega)
    · exact Or.inl (by omega)
    · exact Or.inl (by omega)
    · exact Or.inr ⟨by omega, cmpCharData_le_trans as bs cs h1r h2r⟩

theorem cmpOptStr_swap (a b : Option String) :
    cmpOptStr b a = (cmpOptStr a b).swap := by
  match a, b with
  | none, none => rfl
  | none, some _ => rfl
  | some _, none => rfl
  | some x, some y => exact cmpCharData_swap x.data y.data

theorem cmpOptStr_congr (a b : Option String) (h : cmpOptStr a b = .eq) :
    ∀ c, cmpOptStr a c = cmpOptStr b c := by
  intro c
  match a, b, c with
  | none, none, _ => rfl
  | none, some _, _ => simp [cmpOptStr] at h
  | some _, none, _ => simp [cmpOptStr] at h
  | some _, some _, none => rfl
  | some x, some y, some z => exact cmpCharData_congr x.data y.data h z.data

theorem cmpOptStr_lt_trans (a b c : Option String) (h1 : cmpOptStr a b = .lt)
    (h2 : cmpOptStr b c = .lt) : cmpOptStr a c = .lt := by
  match a, b, c with
  | none, none, _ => simp [cmpOptStr] at h1
  | some _, none, _ => simp [cmpOptStr] at h1
  | none, some _, none => simp [cmpOptStr] at h2
  | some _, some _, none => simp [cmpOptStr] at h2
  | none, some _, some _ => rfl
  | some x, some y, some z =>
    exact cmpCharData_lt_trans x.data y.data z.data h1 h2

theorem cmpOptStr_le_trans (a b c : Option String) (h1 : cmpOptStr a b ≠ .gt)
    (h2 : cmpOptStr b c ≠ .gt) : cmpOptStr a c ≠ .gt := by
  match a, b, c with
  | none, _, none => simp [cmpOptStr]
  | none, _, some _ => simp [cmpOptStr]
  | some _, none, _ => simp [cmpOptStr] at h1
  | some _, some _, none => simp [cmpOptStr] at h2
  | some x, some y, some z =>
    exact cmpCharData_le_trans x.data y.data z.data h1 h2

/-! Lexicographic composition via `Ordering.then` -/

theorem ordSwap_inj (o p : Ordering) (h : o.swap = p.swap) : o = p := by
  cases o <;> cases p <;> simp [Ordering.swap] at h <;> rfl

theorem then_swap {α : Type} (f g : α → α → Ordering)
    (hf : ∀ a b, f b a = (f a b).swap) (hg : ∀ a b, g b a = (g a b).swap)
    (a b : α) : (f b a).then (g b a) = ((f a b).then (g a b)).swap := by
  rw [hf, hg]
  cases f a b <;> rfl

theorem then_congr {α : Type} (f g : α → α → Ordering)
    (hf : ∀ a b, f a b = .eq → ∀ c, f a c = f b c)
    (hg : ∀ a b, g a b = .eq → ∀ c, g a c = g b c)
    (a b : α) (h : (f a b).then (g a b) = .eq) (c : α) :
    (f a c).then (g a c) = (f b c).then (g b c) := by
  cases hfab : f a b <;> rw [hfab] at h <;> simp [Ordering.then] at h
  rw [hf a b hfab c, hg a b h c]

theorem then_le_trans {α : Type} (f g : α → α → Ordering)
    (hfswap : ∀ a b, f b a = (f a b).swap)
    (hfcongr : ∀ a b, f a b = .eq → ∀ c, f a c = f b c)
    (hflt : ∀ a b c, f a b = .lt → f b c = .lt → f a c = .lt)
    (hgle : ∀ a b c, g a b ≠ .gt → g b c ≠ .gt → g a c ≠ .gt)
    (a b c : α)
    (h1 : (f a b).then (g a b) ≠ .gt) (h2 : (f b c).then (g b c) ≠ .gt) :
    (f a c).then (g a c) ≠ .gt := by
  cases hab : f a b <;> rw [hab] at h1 <;> simp [Ordering.then] at h1
  case lt =>
    cases hbc : f b c <;> rw [hbc] at h2 <;> simp [Ordering.then] at h2
    case lt =>
      rw [hflt a b c hab hbc]
      simp [Ordering.then]
    case eq =>
      have h3 := hfcongr b c hbc a
      rw [hfswap a b, hfswap a c] at h3
      have h4 : f a b = f a c := ordSwap_inj (f a b) (f a c) h3
      rw [← h4, hab]
      simp [Ordering.then]
  case eq =>
    cases hbc : f b c <;> rw [hbc] at h2 <;> simp [Ordering.then] at h2
    case lt =>
      rw [hfcongr a b hab c, hbc]
      simp [Ordering.then]
    case eq =>
      rw [hfcongr a b hab c, hbc]
      simpa [Ordering.then] using hgle a b c h1 h2

/-! ### The `ORDER BY` relations of `search_catalogs` and `get_part_requests` -/

/-- Rank for `desc(is_favorite)`: favorites sort before non-favorites. -/
def favRank (b : Bool) : Nat := if b then 0 else 1

/-- Comparator for `ORDER BY desc(is_favorite), group_name, models`
    (db.py `search_catalogs`). -/
def catCmp (a b : Catalog) : Ordering :=
  (cmpNat (favRank a.is_favorite) (favRank b.is_favorite)).then
    ((cmpOptStr a.group_name b.group_name).then (cmpOptStr a.models b.models))

def catLe (a b : Catalog) : Prop := catCmp a b ≠ .gt

instance : DecidableRel catLe := fun a b =>
  inferInstanceAs (Decidable (catCmp a b ≠ .gt))

theorem catCmp_swap (a b : Catalog) : catCmp b a = (catCmp a b).swap := by
  unfold catCmp
  exact then_swap (fun a b => cmpNat (favRank a.is_favorite) (favRank b.is_favorite))
    (fun a b => (cmpOptStr a.group_name b.group_name).then (cmpOptStr a.models b.models))
    (fun a b => cmpNat_swap (favRank a.is_favorite) (favRank b.is_favorite))
    (fun a b => then_swap (fun a b => cmpOptStr a.group_name b.group_name)
      (fun a b => cmpOptStr a.models b.models)
      (fun a b => cmpOptStr_swap a.group_name b.group_name)
      (fun a b => cmpOptStr_swap a.models b.models) a b) a b

instance : IsTotal Catalog catLe where
  total a b := by
    unfold catLe
    cases h : catCmp a b
    · exact Or.inl (by simp [h])
    · exact Or.inl (by simp [h])
    · refine Or.inr ?_
      rw [catCmp_swap b a] at h
      intro hc
      rw [hc] at h
      simp [Ordering.swap] at h

instance : IsTrans Catalog catLe where
  trans a b c h1 h2 := by
    unfold catLe catCmp at h1 h2 ⊢
    refine then_le_trans
      (fun a b => cmpNat (favRank a.is_favorite) (favRank b.is_favorite))
      (fun a b => (cmpOptStr a.group_name b.group_name).then (cmpOptStr a.models b.models))
      (fun a b => cmpNat_swap (favRank a.is_favorite) (favRank b.is_favorite))
      (fun a b h c => cmpNat_congr (favRank a.is_favorite) (favRank b.is_favorite) h
        (favRank c.is_favorite))
      (fun a b c => cmpNat_lt_trans (favRank a.is_favorite) (favRank b.is_favorite)
        (favRank c.is_favorite))
      (fun a b c => then_le_trans (fun a b => cmpOptStr a.group_name b.group_name)
        (fun a b => cmpOptStr a.models b.models)
        (fun a b => cmpOptStr_swap a.group_name b.group_name)
        (fun a b h c => cmpOptStr_congr a.group_name b.group_name h c.group_name)
        (fun a b c => cmpOptStr_lt_trans a.group_name b.group_name c.group_name)
        (fun a b c => cmpOptStr_le_trans a.models b.models c.models) a b c)
      a b c h1 h2

/-- Comparator for `ORDER BY desc(created_at), desc(id)`
    (db.py `get_part_requests`). -/
def reqCmp (a b : PartRequest) : Ordering :=
  (cmpNat b.created_at a.created_at).then (cmpNat b.id a.id)

def reqLe (a b : PartRequest) : Prop := reqCmp a b ≠ .gt

instance : DecidableRel reqLe := fun a b =>
  inferInstanceAs (Decidable (reqCmp a b ≠ .gt))

theorem reqCmp_swap (a b : PartRequest) : reqCmp b a = (reqCmp a b).swap := by
  unfold reqCmp
  exact then_swap (fun a b => cmpNat b.created_at a.created_at)
    (fun a b => cmpNat b.id a.id)
    (fun a b => cmpNat_swap b.created_at a.created_at)
    (fun a b => cmpNat_swap b.id a.id) a b

instance : IsTotal PartRequest reqLe where
  total a b := by
    unfold reqLe
    cases h : reqCmp a b
    · exact Or.inl (by simp [h])
    · exact Or.inl (by simp [h])
    · refine Or.inr ?_
      rw [reqCmp_swap b a] at h
      intro hc
      rw [hc] at h
      simp [Ordering.swap] at h

instance : IsTrans PartRequest reqLe where
  trans a b c h1 h2 := by
    unfold reqLe reqCmp at h1 h2 ⊢
    refine then_le_trans (fun a b => cmpNat b.created_at a.created_at)
      (fun a b => cmpNat b.id a.id)
      (fun a b => cmpNat_swap b.created_at a.created_at)
      (fun a b h c => by
        have hba : b.created_at = a.created_at :=
          (cmpNat_eq_iff b.created_at a.created_at).mp h
        show cmpNat c.created_at a.created_at = cmpNat c.created_at b.created_at
        rw [hba])
      (fun a b c h1 h2 => cmpNat_lt_trans c.created_at b.created_at a.created_at h2 h1)
      (fun a b c h1 h2 => cmpNat_le_trans c.id b.id a.id h2 h1)
      a b c h1 h2

/-! ### db.py — catalog search, favorites, notes

Optional arguments that Python passes as `None` or as a falsy empty string
are modelled as a plain `String` where `""` means "absent", matching how
`app.index` calls `search_catalogs(group=filters["group"] or None, ...)`. -/

def optLikeSub (field : Option String) (pat : String) : Bool :=
  match field with
  | none => false
  | some s => containsCI s pat

/-- The free-text condition of `search_catalogs`:
    `lower(models) LIKE q OR lower(description) LIKE q OR lower(group_name) LIKE q`
    where q is the trimmed, lowered query wrapped in percent signs
    (NULL columns never match). -/
def cat_match_query (q : String) (c : Catalog) : Bool :=
  optLikeSub c.models q || optLikeSub c.description q || optLikeSub c.group_name q

/-- The conjunction of WHERE conditions built by `db.search_catalogs`. -/
def search_cond (group model_fragment catalog_type query country_filter : String)
    (favorites_only : Bool) (c : Catalog) : Bool :=
  (query == "" || cat_match_query (pyStrip query) c) &&
  (model_fragment == "" || optLikeSub c.models (pyStrip model_fragment)) &&
  (group == "" || c.group_name == some group) &&
  (catalog_type == "" || c.ctype == some catalog_type) &&
  (country_filter == "" ||
    (match c.domain with
     | none => false
     | some d => endsWithB (lowerStr d) ("." ++ lowerStr (pyStrip country_filter)))) &&
  (!favorites_only || c.is_favorite)

/-- Model of `db.search_catalogs`: WHERE conjunction, then
    `ORDER BY desc(is_favorite), group_name, models`. -/
def search_catalogs (db : List Catalog)
    (group model_fragment catalog_type query country_filter : String)
    (favorites_only : Bool) : List Catalog :=
  List.insertionSort catLe
    (db.filter (search_cond group model_fragment catalog_type query country_filter
      favorites_only))

/-- Model of `db.toggle_favorite`: flip `is_favorite` on the record with the given
    primary key, returning the new value, or `none` when the id is absent. -/
def toggle_favorite (db : List Catalog) (cid : Nat) : Option Bool × List Catalog :=
  match db.find? (fun c => c.id == cid) with
  | none => (none, db)
  | some c =>
    (some (!c.is_favorite),
     db.map (fun x => if x.id == cid then { x with is_favorite := !x.is_favorite } else x))

/-- Model of `db.update_notes`: overwrite `engineer_note` with the supplied text,
    or report `false` when the id is absent. -/
def update_notes (db : List Catalog) (cid : Nat) (note : String) :
    Bool × List Catalog :=
  match db.find? (fun c => c.id == cid) with
  | none => (false, db)
  | some _ =>
    (true,
     db.map (fun x => if x.id == cid then { x with engineer_note := some note } else x))

/-- Model of `app.edit_note` (POST branch): the form value is passed to
    `update_engineer_note` → `update_notes` without any trimming. -/
def edit_note (db : List Catalog) (cid : Nat) (raw : String) : Bool × List Catalog :=
  update_notes db cid raw

/-! ### db.py — search logging (`log_search`), and its call in `app.index` -/

/-- Model of `db.log_search(filters)`: the SearchLog row built from the filter dict
    (query/group/catalog_type trimmed with empty normalised to NULL;
    results_count is hard-coded to 0; model and country are not stored). -/
def log_search (f : Filters) : SearchLogRow :=
  { query := optOfStr (pyStrip f.query)
    group_filter := optOfStr (pyStrip f.group)
    type_filter := optOfStr (pyStrip f.catalog_type)
    has_favorite := f.favorites_only
    results_count := 0 }

/-- Search logging in `app.index`: the route calls `log_search(filters)` on every request,
    unconditionally: the log grows by exactly one row per invocation. -/
def index_search_logs (f : Filters) (logs : List SearchLogRow) : List SearchLogRow :=
  logs ++ [log_search f]

/-! ### db.py / app.py — saved query templates -/

/-- Model of `db.create_saved_query(title, filters)`: keeps only query, group and
    catalog_type; returns `none` (no save) when all three are empty. -/
def create_saved_query (title : String) (f : Filters) : Option SavedQueryRec :=
  let q := pyStrip f.query
  let g := pyStrip f.group
  let t := pyStrip f.catalog_type
  if q = "" && g = "" && t = "" then none
  else some { title := title
              query := optOfStr q
              group_filter := optOfStr g
              type_filter := optOfStr t }

/-- Model of `app.save_query` (the POST route): rejects an empty/whitespace title,
    otherwise defers to `create_saved_query`. -/
def save_query (title : String) (f : Filters) : Option SavedQueryRec :=
  let t := pyStrip title
  if t = "" then none else create_saved_query t f

/-- Model of `app.use_query`: the filter set reconstructed from a stored template,
    via the `SavedQuery` convenience properties (`group_name`,
    `model_fragment` — always `""`, `catalog_type`, `country` — always `""`). -/
def load_template (r : SavedQueryRec) : Filters :=
  { group := r.group_filter.getD ""
    model := ""
    catalog_type := r.type_filter.getD ""
    query := r.query.getD ""
    country := ""
    favorites_only := false }

/-! ### db.py / app.py — part-request workflow -/

/-- Constant `app.ALLOWED_REQUEST_STATUSES`. -/
def allowed_request_statuses : List String :=
  ["new", "in_work", "ordered", "received", "cancelled"]

/-- Model of `db.update_request_status`: set the status of the request with the
    given id; `false` (store untouched) when the id is absent. -/
def update_request_status (db : List PartRequest) (rid : Nat) (st : String) :
    Bool × List PartRequest :=
  match db.find? (fun r => r.id == rid) with
  | none => (false, db)
  | some _ =>
    (true, db.map (fun r => if r.id == rid then { r with status := st } else r))

/-- Model of `app.request_change_status` (after the admin gate): the trimmed form
    value must be one of the allowed statuses, otherwise the route flashes
    an error and leaves the store untouched. -/
def request_change_status (db : List PartRequest) (rid : Nat)
    (new_status : String) : Bool × List PartRequest :=
  let st := pyStrip new_status
  if st ∈ allowed_request_statuses then update_request_status db rid st
  else (false, db)

/-- The request store with its auto-increment counter. -/
structure ReqDb where
  reqs : List PartRequest
  next_id : Nat
deriving DecidableEq, Repr

/-- Model of `db.add_part_request`: insert a fresh request with status `"new"`,
    returning its id. -/
def add_part_request (db : ReqDb) (pn nm md gp : Option String)
    (cat : Option Nat) (src ip ua : Option String) (now : Nat) : Nat × ReqDb :=
  let req : PartRequest :=
    { id := db.next_id
      part_number := pn
      name := nm
      model := md
      group_name := gp
      catalog_id := cat
      source_url := src
      requester_ip := ip
      requester_ua := ua
      status := "new"
      note := none
      created_at := now }
  (db.next_id, { reqs := db.reqs ++ [req], next_id := db.next_id + 1 })

/-- Model of `app.new_request` (POST branch): trims the form fields, rejects when
    both part number and name are empty, otherwise files the request.
    `catalog_id_raw` is parsed as an integer, invalid text becoming `None`. -/
def new_request (db : ReqDb)
    (part_number name model group_name catalog_id_raw source_url ip ua : String)
    (now : Nat) : Option (Nat × ReqDb) :=
  let pn := pyStrip part_number
  let nm := pyStrip name
  if pn = "" && nm = "" then none
  else
    some (add_part_request db (optOfStr pn) (optOfStr nm)
      (optOfStr (pyStrip model)) (optOfStr (pyStrip group_name))
      ((pyStrip catalog_id_raw).toNat?) (optOfStr (pyStrip source_url))
      (some ip) (some ua) now)

/-- Model of `db.get_part_requests`: optional status filter (the WHERE clause),
    then `ORDER BY desc(created_at), desc(id)` — newest first. -/
def get_part_requests (db : ReqDb) (status : String) : List PartRequest :=
  let rows := if status = "" then db.reqs
              else db.reqs.filter (fun r => r.status == status)
  List.insertionSort reqLe rows

/-! ### catalog_data.py — the Excel-side loader and filter -/

/-- Constant `catalog_data.BLOCKED_DOMAINS`. -/
def blocked_domains : List String :=
  ["machinetechdoc.com", "servicepartmanuals.com", "interdalnoboy.com",
   "www.avtozapchasty.ru", "avtozapchasty.ru", "avtofiles.com",
   "www.niva-club.net", "niva-club.net"]

/-- One Excel row; a missing cell is the empty string.  `tip` is the
    `Тип` column of db.py, `tip_kataloga` the `Тип каталога` column of
    catalog_data.py. -/
structure XRow where
  gruppa : String
  modeli : String
  tip : String
  opisanie : String
  ssylka : String
  status : String
  istochnik : String
  tip_kataloga : String
deriving DecidableEq, Repr

/-- Model of `catalog_data._is_allowed_row`: non-empty URL, explicit http/https
    scheme, domain not blocked, catalog type not marked paid (`платный`). -/
def is_allowed_row (r : XRow) : Bool :=
  let url := pyStrip r.ssylka
  if url = "" then false
  else if !(startsWithB url "http://" || startsWithB url "https://") then false
  else if (lowerStr (netloc url)) ∈ blocked_domains then false
  else if subOf (lowerData "платный".data) (lowerData r.tip_kataloga.data) then false
  else true

/-- The Catalog record built by `db.refresh_catalogs_from_excel` for one
    accepted row (ids assigned sequentially by the insert). -/
def mkCatalogRec (n : Nat) (r : XRow) (url : String) : Catalog :=
  { id := n
    group_name := optOfStr (pyStrip r.gruppa)
    models := optOfStr (pyStrip r.modeli)
    ctype := optOfStr (pyStrip r.tip)
    description := optOfStr (pyStrip r.opisanie)
    url := url
    domain := optOfStr (netloc url)
    status := optOfStr (pyStrip r.status)
    source_type := optOfStr (pyStrip r.istochnik)
    is_favorite := false
    engineer_note := none }

def refresh_aux : List XRow → Nat → List Catalog
  | [], _ => []
  | r :: rs, n =>
    let url := pyStrip r.ssylka
    if url = "" then refresh_aux rs n
    else mkCatalogRec n r url :: refresh_aux rs (n + 1)

/-- Model of `db.refresh_catalogs_from_excel`: the replacement table built from the
    Excel rows.  The only per-row filter in this code path is
    `if not url: continue` — rows are NOT passed through
    `catalog_data._is_allowed_row`. -/
def refresh_catalogs_from_excel (rows : List XRow) : List Catalog :=
  refresh_aux rows 1

/-- One row of the frame `filter_catalog` operates on (column values as
    strings, as produced by the astype(str) step of `load_catalog_df`). -/
structure XCRow where
  gruppa : String
  modeli : String
  tip_kataloga : String
  opisanie : String
  ssylka : String
  nomer_kataloga : String
  katalozhnyj_nomer : String
  katalozhnyj_nomer_detali : String
deriving DecidableEq, Repr

/-- A pandas frame for `catalog_data.filter_catalog`: the three optional
    catalog-number columns may be absent (`col in result.columns`). -/
structure CFrame where
  has_nomer_kataloga : Bool
  has_katalozhnyj_nomer : Bool
  has_katalozhnyj_nomer_detali : Bool
  rows : List XCRow
deriving DecidableEq, Repr

/-- The free-text mask of `catalog_data.filter_catalog`: OR over the
    candidate columns present in the frame, each tested with
    `str.contains(pattern, case=False, na=False)`. -/
def row_query_mask (fr : CFrame) (pat : String) (r : XCRow) : Bool :=
  containsCI r.modeli pat || containsCI r.opisanie pat || containsCI r.ssylka pat ||
  (fr.has_nomer_kataloga && containsCI r.nomer_kataloga pat) ||
  (fr.has_katalozhnyj_nomer && containsCI r.katalozhnyj_nomer pat) ||
  (fr.has_katalozhnyj_nomer_detali && containsCI r.katalozhnyj_nomer_detali pat)

/-- Model of `catalog_data.filter_catalog`: exact group and type filters,
    case-insensitive model substring, and the whole trimmed query as one
    case-insensitive pattern over the candidate columns. -/
def filter_catalog (fr : CFrame) (group model catalog_type query : String) :
    List XCRow :=
  let r1 := if group ≠ "" then fr.rows.filter (fun r => r.gruppa == group)
            else fr.rows
  let r2 := if model ≠ "" then
              (let p := pyStrip model
               if p ≠ "" then r1.filter (fun r => containsCI r.modeli p) else r1)
            else r1
  let r3 := if catalog_type ≠ "" then r2.filter (fun r => r.tip_kataloga == catalog_type)
            else r2
  if query ≠ "" then
    (let p := pyStrip query
     if p ≠ "" then r3.filter (row_query_mask fr p) else r3)
  else r3

/-! ### Definitions modelled from the spec (for comparison only) -/

/-- Modelled from the spec: the free-text terms — "the query is split on
    whitespace into terms", "empty/whitespace-only terms are discarded". -/
def spec_terms (q : String) : List String := pyWords q

/-- Modelled from the spec: "every term must match (logical AND across
    terms); a term matches a record if it is a case-insensitive substring
    of any of a fixed set of searchable fields". -/
def spec_query_match (fr : CFrame) (q : String) (r : XCRow) : Bool :=
  (spec_terms q).all (fun t => row_query_mask fr t r)

/-- Modelled from the spec: the claimed result ordering of `search` with no
    filters — "ordered ascending lexicographically by group name, then
    model, then catalog type". -/
def spec_cat_cmp (a b : Catalog) : Ordering :=
  (cmpOptStr a.group_name b.group_name).then
    ((cmpOptStr a.models b.models).then (cmpOptStr a.ctype b.ctype))

def spec_cat_le (a b : Catalog) : Prop := spec_cat_cmp a b ≠ .gt

instance : DecidableRel spec_cat_le := fun a b =>
  inferInstanceAs (Decidable (spec_cat_cmp a b ≠ .gt))

/-- Modelled from the spec: the whole store "ordered ascending
    lexicographically by group name, then model, then catalog type". -/
def spec_order_catalogs (db : List Catalog) : List Catalog :=
  List.insertionSort spec_cat_le db

/-- Modelled from the spec: the CatalogEntry invariant — "URL is non-empty
    and begins with an explicit scheme; entries whose domain is on a
    blocked-domain set, or whose catalog type/URL indicates a paid/
    login-gated resource, must never enter the store". -/
def spec_entry_ok (c : Catalog) : Bool :=
  (c.url != "") &&
  (startsWithB c.url "http://" || startsWithB c.url "https://") &&
  !(decide ((lowerStr (netloc c.url)) ∈ blocked_domains)) &&
  !(match c.ctype with
    | none => false
    | some t => subOf (lowerData "платный".data) (lowerData t.data))

/-- Modelled from the spec: the store-wide invariant of claim C2. -/
def spec_store_ok (db : List Catalog) : Bool := db.all spec_entry_ok

/-! ### Helper lemmas -/

/-- A keyed in-place update commutes with `find?` under a key-preserving
    modification (the list model of `UPDATE ... WHERE id = ?`). -/
theorem find_map_upd {α : Type} (p : α → Bool) (g : α → α)
    (hp : ∀ x, p (g x) = p x) :
    ∀ l : List α, (l.map (fun x => if p x then g x else x)).find? p =
      (l.find? p).map g
  | [] => rfl
  | a :: l => by
    by_cases h : p a = true
    · simp [List.find?, h, hp]
    · simp only [List.map_cons, if_neg h]
      rw [List.find?_cons_of_neg _ (by simp [h]), List.find?_cons_of_neg _ (by simp [h])]
      exact find_map_upd p g hp l

/-! ### C1 — free-text search semantics -/

/-- A frame with a single row whose description is "hydraulic valve". -/
def cexRow : XCRow :=
  { gruppa := "Combines", modeli := "", tip_kataloga := "",
    opisanie := "hydraulic valve", ssylka := "", nomer_kataloga := "",
    katalozhnyj_nomer := "", katalozhnyj_nomer_detali := "" }

def cexFrame : CFrame :=
  { has_nomer_kataloga := false, has_katalozhnyj_nomer := false,
    has_katalozhnyj_nomer_detali := false, rows := [cexRow] }

/-- A catalog entry whose description is "hydraulic valve". -/
def cexCat : Catalog :=
  { id := 1, group_name := some "Combines", models := some "Don-1500",
    ctype := some "PDF", description := some "hydraulic valve",
    url := "http://b", domain := some "b.ru", status := none,
    source_type := none, is_favorite := false, engineer_note := none }

/-- C1: the claim says the query is split on whitespace and every term must
    match some searchable field, so "valve hydraulic" should match a row
    whose description is "hydraulic valve".  Both `filter_catalog` and
    `search_catalogs` instead use the whole trimmed query as one substring
    pattern and return nothing. -/
theorem C1_counterexample :
    spec_query_match cexFrame "valve hydraulic" cexRow = true ∧
    filter_catalog cexFrame "" "" "" "valve hydraulic" = [] ∧
    search_catalogs [cexCat] "" "" "" "valve hydraulic" "" false = [] := by
  decide

/-- C1 (amended): for a pure free-text search, `filter_catalog` returns
    exactly the rows in which the whole trimmed query is a case-insensitive
    substring of at least one searchable column; a query that is empty after
    trimming applies no text filter.  The query is never split into terms. -/
theorem C1_amended (fr : CFrame) (q : String) (r : XCRow) :
    r ∈ filter_catalog fr "" "" "" q ↔
      (r ∈ fr.rows ∧ (pyStrip q ≠ "" → row_query_mask fr (pyStrip q) r = true)) := by
  unfold filter_catalog
  by_cases hq : q = ""
  · subst hq
    simp [List.mem_filter, (by decide : pyStrip "" = "")]
  · by_cases hp : pyStrip q = ""
    · simp [hq, hp]
    · simp [hq, hp, List.mem_filter]

/-- C1 amended, applied at a concrete query and row. -/
theorem C1_witness : cexRow ∈ filter_catalog cexFrame "" "" "" "valve" :=
  (C1_amended cexFrame "valve" cexRow).mpr ⟨by decide, fun _ => by decide⟩

/-! ### C2 — store invariant under the Excel refresh -/

/-- An Excel row pointing into a blocked domain. -/
def xrowBlocked : XRow :=
  { gruppa := "G", modeli := "M", tip := "T", opisanie := "D",
    ssylka := "http://machinetechdoc.com/cat.pdf", status := "",
    istochnik := "", tip_kataloga := "" }

/-- A clean Excel row. -/
def xrowGood : XRow :=
  { gruppa := "G", modeli := "M", tip := "PDF", opisanie := "D",
    ssylka := "https://ok.example/x", status := "", istochnik := "",
    tip_kataloga := "PDF" }

/-- C2: `refresh_catalogs_from_excel` only skips rows with an empty URL; it
    never applies the scheme/blocked-domain/paid checks (those live in
    `catalog_data._is_allowed_row`, which this code path does not call), so
    a blocked-domain entry does enter the store. -/
theorem C2_counterexample :
    spec_store_ok (refresh_catalogs_from_excel [xrowBlocked]) = false := by
  decide

theorem refresh_aux_url_ne : ∀ (rows : List XRow) (n : Nat) (c : Catalog),
    c ∈ refresh_aux rows n → c.url ≠ ""
  | [], _, _, h => by simp [refresh_aux] at h
  | r :: rs, n, c, h => by
    unfold refresh_aux at h
    by_cases hu : pyStrip r.ssylka = ""
    · rw [if_pos hu] at h
      exact refresh_aux_url_ne rs n c h
    · rw [if_neg hu] at h
      rcases List.mem_cons.mp h with h | h
      · subst h
        exact hu
      · exact refresh_aux_url_ne rs (n + 1) c h

/-- C2 (amended): the db.py refresh guarantees only that every stored entry
    has a non-empty (trimmed) URL; the full invariant — explicit http/https
    scheme, domain not blocked, catalog type not paid — is guaranteed only
    for rows accepted by `catalog_data._is_allowed_row`, a check the
    refresh path never runs. -/
theorem C2_amended :
    (∀ (rows : List XRow) (c : Catalog),
      c ∈ refresh_catalogs_from_excel rows → c.url ≠ "") ∧
    (∀ r : XRow, is_allowed_row r = true →
      pyStrip r.ssylka ≠ "" ∧
      (startsWithB (pyStrip r.ssylka) "http://" = true ∨
       startsWithB (pyStrip r.ssylka) "https://" = true) ∧
      lowerStr (netloc (pyStrip r.ssylka)) ∉ blocked_domains ∧
      subOf (lowerData "платный".data) (lowerData r.tip_kataloga.data) = false) := by
  constructor
  · intro rows c h
    exact refresh_aux_url_ne rows 1 c h
  · intro r h
    unfold is_allowed_row at h
    by_cases h1 : pyStrip r.ssylka = ""
    · simp [h1] at h
    · rw [if_neg h1] at h
      by_cases h2 : (startsWithB (pyStrip r.ssylka) "http://" ||
          startsWithB (pyStrip r.ssylka) "https://") = true
      · rw [if_neg (by simp [h2])] at h
        by_cases h3 : (lowerStr (netloc (pyStrip r.ssylka))) ∈ blocked_domains
        · rw [if_pos h3] at h
          exact absurd h (by simp)
        · rw [if_neg h3] at h
          by_cases h4 : subOf (lowerData "платный".data)
              (lowerData r.tip_kataloga.data) = true
          · rw [if_pos h4] at h
            exact absurd h (by simp)
          · exact ⟨h1, by simpa using h2, h3, by simpa using h4⟩
      · rw [if_pos (by simp_all)] at h
        exact absurd h (by simp)

/-- C2 amended, applied at a concrete clean row. -/
theorem C2_witness :
    (mkCatalogRec 1 xrowGood "https://ok.example/x").url ≠ "" ∧
    lowerStr (netloc (pyStrip xrowGood.ssylka)) ∉ blocked_domains :=
  ⟨C2_amended.1 [xrowGood] (mkCatalogRec 1 xrowGood "https://ok.example/x") (by decide),
   (C2_amended.2 xrowGood (by decide)).2.2.1⟩

/-! ### C3 — unfiltered search ordering -/

def cexCatA : Catalog :=
  { id := 1, group_name := some "A", models := some "m1", ctype := some "t1",
    description := some "hydraulic pump", url := "http://a",
    domain := some "a.by", status := none, source_type := none,
    is_favorite := false, engineer_note := none }

def cexCatB : Catalog :=
  { id := 2, group_name := some "B", models := some "m2", ctype := some "t2",
    description := some "hydraulic valve", url := "http://b",
    domain := some "b.ru", status := none, source_type := none,
    is_favorite := true, engineer_note := none }

/-- C3: the claim says the unfiltered result is ordered ascending by
    (group, model, type); the code orders by `desc(is_favorite)` first, so
    the favorite entry of group "B" is returned before the non-favorite
    entry of group "A". -/
theorem C3_counterexample :
    search_catalogs [cexCatA, cexCatB] "" "" "" "" "" false ≠
      spec_order_catalogs [cexCatA, cexCatB] := by
  decide

/-- C3 (amended): `search` with no filters and no query returns the entire
    store, ordered by the favorite flag descending first, then group name
    and models ascending (NULLs first); catalog type is not a sort key. -/
theorem C3_amended (db : List Catalog) :
    (search_catalogs db "" "" "" "" "" false).Perm db ∧
    List.Sorted catLe (search_catalogs db "" "" "" "" "" false) := by
  unfold search_catalogs
  have hall : db.filter (search_cond "" "" "" "" "" false) = db := by
    rw [List.filter_eq_self]
    intro a _
    simp [search_cond]
  rw [hall]
  exact ⟨List.perm_insertionSort catLe db, List.sorted_insertionSort catLe db⟩

/-! ### C4 — search logging -/

def emptyFilters : Filters :=
  { group := "", model := "", catalog_type := "", query := "", country := "",
    favorites_only := false }

/-- C4: the claim says a search with every filter and the text query empty
    is not logged; `app.index` calls `log_search(filters)` unconditionally,
    so even the all-empty search appends a SearchLog row (with all-NULL
    filter columns). -/
theorem C4_counterexample :
    index_search_logs emptyFilters [] =
      [{ query := none, group_filter := none, type_filter := none,
         has_favorite := false, results_count := 0 }] := by
  decide

/-- C4 (amended): every search invocation appends exactly one SearchLog
    row, whatever the filters; the row records the trimmed query, group and
    catalog type (empty normalised to NULL) and the favorites flag — the
    model fragment and country filters are not recorded at all. -/
theorem C4_amended (f : Filters) (logs : List SearchLogRow) :
    (index_search_logs f logs).length = logs.length + 1 ∧
    (index_search_logs f logs).getLast? = some (log_search f) ∧
    (log_search f).query = optOfStr (pyStrip f.query) ∧
    (log_search f).group_filter = optOfStr (pyStrip f.group) ∧
    (log_search f).type_filter = optOfStr (pyStrip f.catalog_type) ∧
    (log_search f).has_favorite = f.favorites_only := by
  refine ⟨?_, ?_, rfl, rfl, rfl, rfl⟩
  · simp [index_search_logs]
  · simp [index_search_logs]

/-! ### C5 — template round-trip -/

def filtersC5 : Filters :=
  { group := "Tractors", model := "MTZ-82", catalog_type := "", query := "",
    country := "", favorites_only := false }

/-- C5: the claim says loading a saved template reproduces all five filter
    fields; `SavedQuery` stores only query/group/type, and the loaded
    model fragment is always the empty string, so a template saved with
    model "MTZ-82" loads with model "". -/
theorem C5_counterexample :
    (create_saved_query "T" filtersC5).map (fun r => (load_template r).model) =
      some "" ∧
    filtersC5.model = "MTZ-82" := by
  decide

/-- C5 (amended): for filter sets whose query/group/type are already
    trimmed (as `app._current_filters_from_request` produces them), a
    successful save reproduces exactly the group, catalog type and query on
    load, while the model fragment and country always load as "". -/
theorem C5_amended (title : String) (f : Filters) (r : SavedQueryRec)
    (hq : pyStrip f.query = f.query) (hg : pyStrip f.group = f.group)
    (ht : pyStrip f.catalog_type = f.catalog_type)
    (h : create_saved_query title f = some r) :
    (load_template r).group = f.group ∧
    (load_template r).catalog_type = f.catalog_type ∧
    (load_template r).query = f.query ∧
    (load_template r).model = "" ∧
    (load_template r).country = "" := by
  unfold create_saved_query at h
  rw [hq, hg, ht] at h
  by_cases hempty : (f.query = "" && f.group = "" && f.catalog_type = "") = true
  · rw [if_pos hempty] at h
    exact absurd h (by simp)
  · rw [if_neg hempty] at h
    have hr := (Option.some_inj.mp h).symm
    subst hr
    refine ⟨?_, ?_, ?_, rfl, rfl⟩
    · by_cases hgg : f.group = "" <;> simp [load_template, optOfStr, hgg]
    · by_cases htt : f.catalog_type = "" <;> simp [load_template, optOfStr, htt]
    · by_cases hqq : f.query = "" <;> simp [load_template, optOfStr, hqq]

def filtersC5w : Filters :=
  { group := "Tractors", model := "", catalog_type := "", query := "mtz",
    country := "", favorites_only := false }

def savedC5w : SavedQueryRec :=
  { title := "T", query := some "mtz", group_filter := some "Tractors",
    type_filter := none }

/-- C5 amended, applied at a concrete template. -/
theorem C5_witness :
    (load_template savedC5w).group = filtersC5w.group ∧
    (load_template savedC5w).catalog_type = filtersC5w.catalog_type ∧
    (load_template savedC5w).query = filtersC5w.query ∧
    (load_template savedC5w).model = "" ∧
    (load_template savedC5w).country = "" :=
  C5_amended "T" filtersC5w savedC5w (by decide) (by decide) (by decide) (by decide)

/-! ### C6 — template save validation -/

def filtersC6 : Filters :=
  { group := "", model := "MTZ-82", catalog_type := "", query := "",
    country := "", favorites_only := false }

/-- C6: the claim says a save succeeds whenever the title is non-empty and
    at least one filter field or the query is non-empty; a filter set whose
    only non-empty field is the model fragment is rejected, because
    `create_saved_query` only inspects query, group and catalog type. -/
theorem C6_counterexample : save_query "T" filtersC6 = none := by
  decide

/-- C6 (amended): a save succeeds exactly when the trimmed title is
    non-empty and at least one of the trimmed query, group or catalog type
    is non-empty; the model, country and favorites fields are ignored. -/
theorem C6_amended (title : String) (f : Filters) :
    save_query title f ≠ none ↔
      (pyStrip title ≠ "" ∧
       (pyStrip f.query ≠ "" ∨ pyStrip f.group ≠ "" ∨ pyStrip f.catalog_type ≠ "")) := by
  unfold save_query create_saved_query
  by_cases ht : pyStrip title = ""
  · simp [ht]
  · by_cases hq : pyStrip f.query = "" <;>
      by_cases hg : pyStrip f.group = "" <;>
      by_cases hc : pyStrip f.catalog_type = "" <;>
      simp [ht, hq, hg, hc]

/-! ### C7 — guarded status change -/

/-- C7 (confirmed): a status not in the allowed enumeration, or an id that
    does not exist, makes `request_change_status` report failure and leave
    the request store unchanged. -/
theorem C7_theorem (db : List PartRequest) (rid : Nat) (st : String) :
    (pyStrip st ∉ allowed_request_statuses →
      request_change_status db rid st = (false, db)) ∧
    (db.find? (fun r => r.id == rid) = none →
      request_change_status db rid st = (false, db)) := by
  constructor
  · intro h
    unfold request_change_status
    rw [if_neg h]
  · intro h
    unfold request_change_status
    by_cases hmem : pyStrip st ∈ allowed_request_statuses
    · rw [if_pos hmem]
      unfold update_request_status
      rw [h]
    · rw [if_neg hmem]

def reqC7 : PartRequest :=
  { id := 1, part_number := some "p", name := some "n", model := none,
    group_name := none, catalog_id := none, source_url := none,
    requester_ip := none, requester_ua := none, status := "new",
    note := none, created_at := 0 }

/-- C7, applied: a bogus status and a missing id both fail without
    touching the store. -/
theorem C7_witness :
    request_change_status [reqC7] 1 "bogus" = (false, [reqC7]) ∧
    request_change_status [reqC7] 99 "ordered" = (false, [reqC7]) :=
  ⟨(C7_theorem [reqC7] 1 "bogus").1 (by decide),
   (C7_theorem [reqC7] 99 "ordered").2 (by decide)⟩

/-! ### C8 — request submission and retrieval -/

/-- C8 (confirmed): submission with both part number and name empty after
    trimming fails; when at least one of them is supplied it succeeds, the
    created request has status "new", its id is retrievable through
    `get_part_requests` filtered by "new", and that listing is ordered
    newest first. -/
theorem C8_theorem :
    (∀ (db : ReqDb) (pn nm md gp cidr su ip ua : String) (now : Nat),
      pyStrip pn = "" → pyStrip nm = "" →
      new_request db pn nm md gp cidr su ip ua now = none) ∧
    (∀ (db : ReqDb) (pn nm md gp cidr su ip ua : String) (now : Nat),
      (pyStrip pn ≠ "" ∨ pyStrip nm ≠ "") →
      ∀ (rid : Nat) (db2 : ReqDb),
      new_request db pn nm md gp cidr su ip ua now = some (rid, db2) →
      (db2.reqs.getLast?).map (fun r => r.status) = some "new" ∧
      (db2.reqs.getLast?).map (fun r => r.id) = some rid ∧
      rid ∈ (get_part_requests db2 "new").map (fun r => r.id) ∧
      List.Sorted reqLe (get_part_requests db2 "new")) := by
  constructor
  · intro db pn nm md gp cidr su ip ua now h1 h2
    unfold new_request
    simp [h1, h2]
  · intro db pn nm md gp cidr su ip ua now h1 rid db2 h2
    unfold new_request at h2
    rw [if_neg (by rcases h1 with h | h <;> simp [h])] at h2
    have h3 := Option.some_inj.mp h2
    unfold add_part_request at h3
    have hrid : rid = db.next_id := by
      have := congrArg Prod.fst h3
      simpa using this.symm
    have hdb2 := (congrArg Prod.snd h3).symm
    simp only at hdb2
    subst hrid
    subst hdb2
    set req : PartRequest :=
      { id := db.next_id
        part_number := optOfStr (pyStrip pn)
        name := optOfStr (pyStrip nm)
        model := optOfStr (pyStrip md)
        group_name := optOfStr (pyStrip gp)
        catalog_id := (pyStrip cidr).toNat?
        source_url := optOfStr (pyStrip su)
        requester_ip := some ip
        requester_ua := some ua
        status := "new"
        note := none
        created_at := now } with hreq
    refine ⟨?_, ?_, ?_, List.sorted_insertionSort reqLe _⟩
    · simp
    · simp
    · have hmem : req ∈ (db.reqs ++ [req]).filter (fun r => r.status == "new") := by
        rw [List.mem_filter]
        exact ⟨List.mem_append_right _ (List.mem_singleton.mpr rfl), by simp⟩
      have hperm := List.perm_insertionSort reqLe
        ((db.reqs ++ [req]).filter (fun r => r.status == "new"))
      refine List.mem_map.mpr ⟨req, ?_, rfl⟩
      unfold get_part_requests
      rw [if_neg (by simp)]
      exact hperm.mem_iff.mpr hmem

def dbC8 : ReqDb := { reqs := [], next_id := 5 }

def reqC8 : PartRequest :=
  { id := 5, part_number := some "pn-77", name := none, model := none,
    group_name := none, catalog_id := none, source_url := none,
    requester_ip := some "i", requester_ua := some "u", status := "new",
    note := none, created_at := 7 }

def dbC8after : ReqDb := { reqs := [reqC8], next_id := 6 }

def reqC8nm : PartRequest :=
  { id := 5, part_number := none, name := some "Filter X", model := none,
    group_name := none, catalog_id := none, source_url := none,
    requester_ip := some "i", requester_ua := some "u", status := "new",
    note := none, created_at := 7 }

def dbC8nm : ReqDb := { reqs := [reqC8nm], next_id := 6 }

/-- C8, applied: the empty submission fails; submitting only a part number
    "pn-77", and submitting only a name "Filter X", each file request 5
    with status "new", retrievable via the "new" listing. -/
theorem C8_witness :
    new_request dbC8 "" " " "m" "g" "" "" "i" "u" 7 = none ∧
    ((dbC8after.reqs.getLast?).map (fun r => r.status) = some "new" ∧
     (dbC8after.reqs.getLast?).map (fun r => r.id) = some 5 ∧
     5 ∈ (get_part_requests dbC8after "new").map (fun r => r.id) ∧
     List.Sorted reqLe (get_part_requests dbC8after "new")) ∧
    ((dbC8nm.reqs.getLast?).map (fun r => r.status) = some "new" ∧
     (dbC8nm.reqs.getLast?).map (fun r => r.id) = some 5 ∧
     5 ∈ (get_part_requests dbC8nm "new").map (fun r => r.id) ∧
     List.Sorted reqLe (get_part_requests dbC8nm "new")) :=
  ⟨C8_theorem.1 dbC8 "" " " "m" "g" "" "" "i" "u" 7 (by decide) (by decide),
   C8_theorem.2 dbC8 "pn-77" "" "" "" "" "" "i" "u" 7
     (Or.inl (by decide)) 5 dbC8after (by decide),
   C8_theorem.2 dbC8 "" "Filter X" "" "" "" "" "i" "u" 7
     (Or.inr (by decide)) 5 dbC8nm (by decide)⟩

/-! ### C9 — engineer notes -/

def catC9 : Catalog :=
  { id := 1, group_name := some "G", models := some "M", ctype := some "T",
    description := some "D", url := "http://a", domain := some "a.by",
    status := none, source_type := none, is_favorite := false,
    engineer_note := none }

/-- C9: the claim says the note is stored trimmed of leading/trailing
    whitespace; `app.edit_note` passes the form value through unstripped
    and `db.update_notes` assigns it verbatim, so "  x  " is stored with
    its whitespace intact. -/
theorem C9_counterexample :
    (edit_note [catC9] 1 "  x  ").2.map (fun c => c.engineer_note) =
      [some "  x  "] ∧
    some "  x  " ≠ some (pyStrip "  x  ") := by
  decide

/-- C9 (amended): `setNote` stores the supplied text verbatim (no
    trimming) and reports success when the id exists, leaving every other
    entry unchanged; it reports false and leaves the store unchanged when
    the id does not exist. -/
theorem C9_amended (db : List Catalog) (cid : Nat) (text : String) :
    (db.find? (fun c => c.id == cid) = none →
      edit_note db cid text = (false, db)) ∧
    (∀ c, db.find? (fun c => c.id == cid) = some c →
      (edit_note db cid text).1 = true ∧
      ((edit_note db cid text).2.find? (fun c => c.id == cid)) =
        some { c with engineer_note := some text } ∧
      (∀ x, x ∈ (edit_note db cid text).2 → x.id ≠ cid → x ∈ db)) := by
  constructor
  · intro h
    unfold edit_note update_notes
    rw [h]
  · intro c h
    unfold edit_note update_notes
    rw [h]
    refine ⟨rfl, ?_, ?_⟩
    · have := find_map_upd (fun c : Catalog => c.id == cid)
        (fun c => { c with engineer_note := some text }) (fun _ => rfl) db
      simp only at this ⊢
      rw [this, h]
      rfl
    · intro x hx hne
      simp only [List.mem_map] at hx
      rcases hx with ⟨y, hy, hxy⟩
      by_cases hyc : (y.id == cid) = true
      · rw [if_pos hyc] at hxy
        have : x.id = y.id := by rw [← hxy]
        rw [this] at hne
        exact absurd (by simpa using hyc) hne
      · rw [if_neg hyc] at hxy
        rw [← hxy]
        exact hy

/-- C9 amended, applied: a missing id is a no-op failure, and an existing
    id stores the raw text. -/
theorem C9_witness :
    edit_note [catC9] 99 "n" = (false, [catC9]) ∧
    ((edit_note [catC9] 1 " n ").2.find? (fun c => c.id == 1)) =
      some { catC9 with engineer_note := some " n " } :=
  ⟨(C9_amended [catC9] 99 "n").1 (by decide),
   ((C9_amended [catC9] 1 " n ").2 catC9 (by decide)).2.1⟩

/-! ### C10 — favorite toggling -/

theorem catalog_toggle_twice (x : Catalog) (cid : Nat) :
    (fun x : Catalog => if x.id == cid then
        { x with is_favorite := !x.is_favorite } else x)
      ((fun x : Catalog => if x.id == cid then
        { x with is_favorite := !x.is_favorite } else x) x) = x := by
  by_cases h : (x.id == cid) = true
  · simp only [if_pos h]
    have h2 : (({ x with is_favorite := !x.is_favorite } : Catalog).id == cid) = true := h
    simp only [if_pos h2, Bool.not_not]
  · simp only [if_neg h, if_neg h]

/-- C10 (confirmed): toggling an existing id returns the flipped flag,
    toggling again returns the original flag and restores the store
    exactly; no field other than `is_favorite` is affected (the stores
    agree after erasing the flag); a missing id returns `none` and leaves
    the store unchanged. -/
theorem C10_theorem (db : List Catalog) (cid : Nat) :
    (db.find? (fun c => c.id == cid) = none →
      toggle_favorite db cid = (none, db)) ∧
    (∀ c, db.find? (fun c => c.id == cid) = some c →
      (toggle_favorite db cid).1 = some (!c.is_favorite) ∧
      (toggle_favorite (toggle_favorite db cid).2 cid).1 = some c.is_favorite ∧
      (toggle_favorite (toggle_favorite db cid).2 cid).2 = db ∧
      (toggle_favorite db cid).2.map (fun x => { x with is_favorite := false }) =
        db.map (fun x => { x with is_favorite := false })) := by
  constructor
  · intro h
    unfold toggle_favorite
    rw [h]
  · intro c h
    have htog : toggle_favorite db cid =
        (some (!c.is_favorite),
         db.map (fun x => if x.id == cid then
           { x with is_favorite := !x.is_favorite } else x)) := by
      unfold toggle_favorite
      rw [h]
    have hfind := find_map_upd (fun c : Catalog => c.id == cid)
      (fun c => { c with is_favorite := !c.is_favorite }) (fun _ => rfl) db
    rw [h] at hfind
    have hcomp : ((fun x : Catalog => if x.id == cid then
          { x with is_favorite := !x.is_favorite } else x) ∘
        (fun x : Catalog => if x.id == cid then
          { x with is_favorite := !x.is_favorite } else x)) = id := by
      funext x
      exact catalog_toggle_twice x cid
    have htog2 : toggle_favorite
        (db.map (fun x => if x.id == cid then
          { x with is_favorite := !x.is_favorite } else x)) cid =
        (some c.is_favorite, db) := by
      unfold toggle_favorite
      rw [hfind]
      change (some (!!c.is_favorite),
        (db.map (fun x => if x.id == cid then
          { x with is_favorite := !x.is_favorite } else x)).map
          (fun x => if x.id == cid then
            { x with is_favorite := !x.is_favorite } else x)) =
        (some c.is_favorite, db)
      rw [List.map_map, hcomp, List.map_id, Bool.not_not]
    refine ⟨by rw [htog], ?_, ?_, ?_⟩
    · rw [htog]
      simp only
      rw [htog2]
    · rw [htog]
      simp only
      rw [htog2]
    · rw [htog]
      simp only
      rw [List.map_map]
      congr 1
      funext x
      by_cases hx : (x.id == cid) = true
      · simp [hx, Function.comp]
      · simp [hx, Function.comp]

def catC10 : Catalog :=
  { id := 1, group_name := some "G", models := some "M", ctype := some "T",
    description := some "D", url := "http://a", domain := some "a.by",
    status := none, source_type := none, is_favorite := false,
    engineer_note := none }

/-- C10, applied: toggling id 1 returns true, a second toggle restores the
    store, and a missing id is a no-op returning none. -/
theorem C10_witness :
    (toggle_favorite [catC10] 1).1 = some true ∧
    (toggle_favorite (toggle_favorite [catC10] 1).2 1).2 = [catC10] ∧
    toggle_favorite [catC10] 7 = (none, [catC10]) :=
  ⟨((C10_theorem [catC10] 1).2 catC10 (by decide)).1,
   ((C10_theorem [catC10] 1).2 catC10 (by decide)).2.2.1,
   (C10_theorem [catC10] 7).1 (by decide)⟩
